import Mathlib

/-!
Verification development for the streaming acquisition engine of the
sipeed-slogic-analyzer libsigrok driver
(`src/hardware/sipeed-slogic-analyzer/protocol.c`).

The engine is embedded shallowly:

* `DevContext` models the fields of `struct dev_context` that the engine
  reads and writes (`devc->...` in the C source).  The struct itself is
  declared in `protocol.h`, which only fixes field widths; counters are
  modelled on `ℕ`.  Every subtraction performed by the code is shown, for
  the states the theorems quantify over, to happen in the wrap-free
  regime (`samples_got_nbytes ≤ samples_need_nbytes`,
  `num_transfers_used ≥ 1`), where `ℕ` truncated subtraction and C
  unsigned subtraction agree.
* `receive_transfer` embeds the libusb completion callback of the same
  name.  Interaction with the outside world is made explicit: the
  monotonic clock reading becomes the argument `now`, the success of
  `libusb_submit_transfer` on resubmission becomes `submitOk`, and the
  bytes handed to `submit_raw_data` are reported in the result.
* `fillPool` embeds the initial submission loop of
  `sipeed_slogic_acquisition_start` (the `while` loop after the probe),
  with the allocation/submission outcomes of each iteration supplied by
  an oracle.
* `probeLoop` embeds the link-probe `do { ... } while (...)` loop of
  `sipeed_slogic_acquisition_start`, again with an outcome oracle.

`TRANSFERS_DURATION_TOLERANCE` and `NUM_MAX_TRANSFERS` are macros of the
header `protocol.h`; following the spec ("a fixed fractional margin", "a
fixed upper bound") they are parameters `tol : ℚ` and `cap : ℕ` of the
definitions.  C `double` arithmetic in timeout/stall computations is
modelled exactly on `ℚ`.
-/

/-- The libusb transfer status values distinguished by the callback
(`enum libusb_transfer_status`). -/
inductive TransferStatus where
  | completed
  | error
  | timedOut
  | cancelled
  | stall
  | noDevice
  | overflow
deriving DecidableEq, Repr

/-- The fields of `struct dev_context` read or written by the acquisition
engine, plus the occupancy of the fixed-size `transfers` slot array
(`struct libusb_transfer *transfers[NUM_MAX_TRANSFERS]`; a slot is `true`
when it holds a registered transfer, `false` when `NULL`).
`cur_pattern_mode_is_test_max_speed` models
`cur_pattern_mode_idx == PATTERN_MODE_TEST_MAX_SPEED`. -/
structure DevContext where
  samples_got_nbytes : ℕ
  samples_need_nbytes : ℕ
  per_transfer_nbytes : ℕ
  per_transfer_duration : ℕ
  num_transfers_used : ℕ
  num_transfers_completed : ℕ
  acq_aborted : Bool
  transfers_reached_nbytes : ℕ
  transfers_reached_nbytes_latest : ℕ
  transfers_reached_time_start : ℤ
  transfers_reached_time_latest : ℤ
  cur_pattern_mode_is_test_max_speed : Bool
  transfers : List Bool
deriving DecidableEq, Repr

/-- One completing libusb transfer, as seen by the callback: its status
and its `actual_length`. -/
structure Transfer where
  status : TransferStatus
  actual_length : ℕ
deriving DecidableEq, Repr

/-- What one invocation of the completion callback did, besides updating
the device context: whether `libusb_submit_transfer` resubmitted the
transfer, and the number of bytes passed to
`devc->model->submit_raw_data` (`none` when it was not called). -/
structure HandlerResult where
  devc : DevContext
  resubmitted : Bool
  forwarded : Option ℕ
deriving DecidableEq, Repr

/-- The clamp at protocol.c:49-50:
`if (transfer->actual_length > devc->samples_need_nbytes - devc->samples_got_nbytes)
   transfer->actual_length = devc->samples_need_nbytes - devc->samples_got_nbytes;`. -/
def clampLen (need got len : ℕ) : ℕ :=
  if len > need - got then need - got else len

/-- `sipeed_slogic_acquisition_stop`: sets the abort latch
(protocol.c:305-315). -/
def sipeed_slogic_acquisition_stop (devc : DevContext) : DevContext :=
  { devc with acq_aborted := true }

/-- The `LIBUSB_TRANSFER_COMPLETED` / `LIBUSB_TRANSFER_TIMED_OUT` arm of
the switch in `receive_transfer` (protocol.c:45-88).  Returns the
updated context, whether the transfer was resubmitted, and the bytes
forwarded to `submit_raw_data`. -/
def handleCompleted (devc : DevContext) (t : Transfer) (now : ℤ)
    (submitOk : Bool) : DevContext × Bool × Option ℕ :=
  let d1 := { devc with
    transfers_reached_nbytes_latest := t.actual_length,
    transfers_reached_nbytes := devc.transfers_reached_nbytes + t.actual_length }
  let len := clampLen d1.samples_need_nbytes d1.samples_got_nbytes t.actual_length
  let d2 := { d1 with
    samples_got_nbytes := d1.samples_got_nbytes + len,
    transfers_reached_time_latest := now }
  if len = 0 then
    ({ d2 with num_transfers_used := d2.num_transfers_used - 1 }, false, none)
  else
    let fwd : Option ℕ :=
      if d2.cur_pattern_mode_is_test_max_speed then none else some len
    let d3 := { d2 with num_transfers_used := d2.num_transfers_used - 1 }
    if d3.samples_got_nbytes + d3.num_transfers_used * d3.per_transfer_nbytes
        < d3.samples_need_nbytes then
      if submitOk then
        ({ d3 with num_transfers_used := d3.num_transfers_used + 1 }, true, fwd)
      else
        (d3, false, fwd)
    else
      (d3, false, fwd)

/-- The cross-pool stall check at protocol.c:101-107: if at least one
completion has already been counted and the monotonic gap since the
previous completion (in ms) exceeds
`(TRANSFERS_DURATION_TOLERANCE + 1) * per_transfer_duration`, force
`num_transfers_used` to zero. -/
def stallCheck (tol : ℚ) (dur : ℤ) (d : DevContext) : DevContext :=
  if d.num_transfers_completed ≠ 0 ∧
      (dur : ℚ) / 1000 > (tol + 1) * (d.per_transfer_duration : ℚ) then
    { d with num_transfers_used := 0 }
  else
    d

/-- The `switch (transfer->status)` of `receive_transfer`
(protocol.c:44-99): completed/timed-out run the data path, the three
link-fatal statuses force `num_transfers_used` to zero, every other
status just drops the slot. -/
def switchStep (devc : DevContext) (t : Transfer) (now : ℤ)
    (submitOk : Bool) : DevContext × Bool × Option ℕ :=
  match t.status with
  | .completed | .timedOut => handleCompleted devc t now submitOk
  | .overflow | .stall | .noDevice =>
      ({ devc with num_transfers_used := 0 }, false, none)
  | _ =>
      ({ devc with num_transfers_used := devc.num_transfers_used - 1 },
       false, none)

/-- The unconditional tail of `receive_transfer` (protocol.c:101-113):
the cross-pool stall check, the zero-outstanding check that calls
`sipeed_slogic_acquisition_stop`, and the final
`num_transfers_completed += 1`. -/
def globalChecks (tol : ℚ) (dur : ℤ) (d0 : DevContext) : DevContext :=
  let d1 := stallCheck tol dur d0
  let d2 := if d1.num_transfers_used = 0 then sipeed_slogic_acquisition_stop d1 else d1
  { d2 with num_transfers_completed := d2.num_transfers_completed + 1 }

/-- The libusb completion callback `receive_transfer`
(protocol.c:23-114).  `now` is the `g_get_monotonic_time()` reading;
`submitOk` tells whether `libusb_submit_transfer` would succeed on
resubmission.  The monotonic gap `dur` is computed from the entry value
of `transfers_reached_time_latest` (protocol.c:36-37), before the
completed/timed-out arm refreshes that timestamp. -/
def receive_transfer (tol : ℚ) (devc : DevContext) (t : Transfer)
    (now : ℤ) (submitOk : Bool) : HandlerResult :=
  let dur : ℤ := now - devc.transfers_reached_time_latest
  if devc.acq_aborted then
    ⟨devc, false, none⟩
  else
    let step := switchStep devc t now submitOk
    ⟨globalChecks tol dur step.1, step.2.1, step.2.2⟩

/-- One completion event delivered by the event loop: the completing
transfer, the clock reading at callback entry, and whether a
resubmission attempt would succeed. -/
structure Event where
  status : TransferStatus
  actual_length : ℕ
  now : ℤ
  submitOk : Bool
deriving DecidableEq, Repr

/-- A sequence of completion-callback invocations folded over the device
context. -/
def runTrace (tol : ℚ) (devc : DevContext) (evs : List Event) : DevContext :=
  evs.foldl
    (fun d e => (receive_transfer tol d ⟨e.status, e.actual_length⟩ e.now e.submitOk).devc)
    devc

/-- Outcome of one iteration of the initial pool-fill loop
(protocol.c:254-283): `g_malloc` of the data buffer fails,
`libusb_alloc_transfer` fails, `libusb_submit_transfer` fails, or
everything succeeds. -/
inductive FillOutcome where
  | bufAllocFail
  | transferAllocFail
  | submitFail
  | ok
deriving DecidableEq, Repr

/-- One transfer registered by the fill loop: the slot index it was
stored at (`devc->transfers[devc->num_transfers_used]`) and the timeout
passed to `libusb_fill_bulk_transfer`
(`(TRANSFERS_DURATION_TOLERANCE + 1) * devc->per_transfer_duration * (devc->num_transfers_used + 2)`). -/
structure Submission where
  slot : ℕ
  timeout : ℚ
deriving DecidableEq, Repr

/-- The initial pool-fill loop of `sipeed_slogic_acquisition_start`
(protocol.c:254-283):
`while (num_transfers_used < NUM_MAX_TRANSFERS && samples_got_nbytes + num_transfers_used * per_transfer_nbytes < samples_need_nbytes)`,
each iteration either failing (any of the three failure outcomes makes
the loop `break` with no further state change) or registering a new
transfer at slot `num_transfers_used` and incrementing the counter.  The
outcome oracle is indexed by the current `num_transfers_used`, which
identifies the iteration since the counter grows by one per successful
iteration and any failure ends the loop. -/
def fillTimeout (tol : ℚ) (duration used : ℕ) : ℚ :=
  (tol + 1) * (duration : ℚ) * ((used : ℚ) + 2)

/-- The state change of one successful fill iteration
(protocol.c:281-282): register the transfer at slot
`num_transfers_used` and increment the counter. -/
def fillNext (devc : DevContext) : DevContext :=
  { devc with
    transfers := devc.transfers.set devc.num_transfers_used true,
    num_transfers_used := devc.num_transfers_used + 1 }

/-- The guard of the fill loop (protocol.c:254). -/
def fillGuard (cap : ℕ) (devc : DevContext) : Prop :=
  devc.num_transfers_used < cap ∧
    devc.samples_got_nbytes + devc.num_transfers_used * devc.per_transfer_nbytes
      < devc.samples_need_nbytes

instance (cap : ℕ) (devc : DevContext) : Decidable (fillGuard cap devc) := by
  unfold fillGuard
  infer_instance

def fillPool (cap : ℕ) (tol : ℚ) (outcomes : ℕ → FillOutcome)
    (devc : DevContext) : DevContext × List Submission :=
  if _h : fillGuard cap devc then
    match outcomes devc.num_transfers_used with
    | .ok =>
      let rest := fillPool cap tol outcomes (fillNext devc)
      (rest.1,
       ⟨devc.num_transfers_used,
        fillTimeout tol devc.per_transfer_duration devc.num_transfers_used⟩ :: rest.2)
    | _ => (devc, [])
  else
    (devc, [])
termination_by cap - devc.num_transfers_used
decreasing_by
  simp [fillNext]
  have := _h.1
  omega

/-- The teardown performed by `handle_events` when the abort latch is
set (protocol.c:133-155): every registered transfer is cancelled,
drained, freed, and its slot cleared to `NULL`. -/
def handle_events_teardown (devc : DevContext) : DevContext :=
  { devc with transfers := List.replicate devc.transfers.length false }

/-- Rounding at protocol.c:201:
`(per_transfer_nbytes + (2*16*1024-1)) & ~(2*16*1024-1)`, i.e. round up
to a multiple of 32768 (the bitmask identity for the power of two
32768). -/
def roundup32k (n : ℕ) : ℕ :=
  (n + (2 * 16 * 1024 - 1)) / (2 * 16 * 1024) * (2 * 16 * 1024)

/-- Outcome of one iteration of the link-probe loop (protocol.c:200-240):
`g_malloc` fails, `libusb_submit_transfer` fails with
`LIBUSB_ERROR_NO_MEM`, it fails with another error, or it succeeds. -/
inductive ProbeOutcome where
  | allocFail
  | submitNoMem
  | submitOtherErr
  | submitOk
deriving DecidableEq, Repr

/-- The inner `do { ... } while (per_transfer_nbytes > 32*1024)` probe
loop of `sipeed_slogic_acquisition_start` (protocol.c:200-240).  Each
iteration rounds `nbytes` up to a 32 KiB multiple and recomputes the
duration (protocol.c:201-202); on allocation failure or an
out-of-memory submission failure it halves and retries while above the
32 KiB floor (exiting with the current values otherwise); on any other
submission failure the whole start fails with `SR_ERR_IO` (`none`); on
submission success it cancels the probe transfer, halves once more,
recomputes the duration with the integer arithmetic of protocol.c:237,
and accepts (`some (nbytes, duration)`).  `rate` is `cur_samplerate`,
`ch` is `cur_samplechannel`, and the oracle is indexed by the iteration
counter `i`. -/
def probeLoop (rate ch : ℕ) (outcomes : ℕ → ProbeOutcome) (i nbytes _dur : ℕ) :
    Option (ℕ × ℕ) :=
  match outcomes i with
  | .allocFail | .submitNoMem =>
    if _h : 32 * 1024 < roundup32k nbytes / 2 then
      probeLoop rate ch outcomes (i + 1) (roundup32k nbytes / 2)
        (roundup32k nbytes * 1000 * 8 / (rate * ch))
    else
      some (roundup32k nbytes / 2, roundup32k nbytes * 1000 * 8 / (rate * ch))
  | .submitOtherErr => none
  | .submitOk =>
    some (roundup32k nbytes / 2, roundup32k nbytes / 2 / (rate / 1000 * ch / 8))
termination_by nbytes
decreasing_by
  all_goals
    have h1 : roundup32k nbytes ≤ nbytes + (2 * 16 * 1024 - 1) := by
      unfold roundup32k
      exact Nat.div_mul_le_self _ _
    omega

/-- The initial per-transfer size computed at protocol.c:191-192:
`per_transfer_duration = 125;`
`per_transfer_nbytes = per_transfer_duration * cur_samplerate * cur_samplechannel / 8 / SR_KHZ(1)`. -/
def initialPerTransferNbytes (rate ch : ℕ) : ℕ :=
  125 * rate * ch / 8 / 1000

/-- The whole probe section of `sipeed_slogic_acquisition_start`
(protocol.c:191-243): compute the initial plan, allocate the probe
transfer (`none`, i.e. `SR_ERR_IO`, when that fails), then run the probe
loop. -/
def sipeed_slogic_probe (rate ch : ℕ) (transferAllocOk : Bool)
    (outcomes : ℕ → ProbeOutcome) : Option (ℕ × ℕ) :=
  if transferAllocOk then
    probeLoop rate ch outcomes 0 (initialPerTransferNbytes rate ch) 125
  else
    none

/-! ### Projection lemmas for the completion handler's pieces -/

theorem clampLen_le_sub (need got len : ℕ) : clampLen need got len ≤ need - got := by
  unfold clampLen
  split <;> omega

theorem handleCompleted_got (devc : DevContext) (t : Transfer) (now : ℤ) (s : Bool) :
    (handleCompleted devc t now s).1.samples_got_nbytes =
      devc.samples_got_nbytes +
        clampLen devc.samples_need_nbytes devc.samples_got_nbytes t.actual_length := by
  simp only [handleCompleted]
  split_ifs <;> rfl

theorem handleCompleted_need (devc : DevContext) (t : Transfer) (now : ℤ) (s : Bool) :
    (handleCompleted devc t now s).1.samples_need_nbytes = devc.samples_need_nbytes := by
  simp only [handleCompleted]
  split_ifs <;> rfl

theorem handleCompleted_completed (devc : DevContext) (t : Transfer) (now : ℤ) (s : Bool) :
    (handleCompleted devc t now s).1.num_transfers_completed = devc.num_transfers_completed := by
  simp only [handleCompleted]
  split_ifs <;> rfl

theorem handleCompleted_duration (devc : DevContext) (t : Transfer) (now : ℤ) (s : Bool) :
    (handleCompleted devc t now s).1.per_transfer_duration = devc.per_transfer_duration := by
  simp only [handleCompleted]
  split_ifs <;> rfl

theorem handleCompleted_transfers (devc : DevContext) (t : Transfer) (now : ℤ) (s : Bool) :
    (handleCompleted devc t now s).1.transfers = devc.transfers := by
  simp only [handleCompleted]
  split_ifs <;> rfl

theorem handleCompleted_used_le (devc : DevContext) (t : Transfer) (now : ℤ) (s : Bool) :
    (handleCompleted devc t now s).1.num_transfers_used ≤ max devc.num_transfers_used 1 := by
  simp only [handleCompleted]
  split_ifs <;> simp <;> omega

/-- The completed/timed-out arm on a completion whose clamped length is
zero: retire the slot, forward nothing, resubmit nothing
(protocol.c:62-65). -/
theorem handleCompleted_len_zero (devc : DevContext) (t : Transfer) (now : ℤ) (s : Bool)
    (h : clampLen devc.samples_need_nbytes devc.samples_got_nbytes t.actual_length = 0) :
    (handleCompleted devc t now s).1.num_transfers_used = devc.num_transfers_used - 1 ∧
      (handleCompleted devc t now s).2.1 = false ∧
      (handleCompleted devc t now s).2.2 = none := by
  simp only [handleCompleted]
  rw [if_pos]
  · exact ⟨rfl, rfl, rfl⟩
  · exact h

theorem stallCheck_got (tol : ℚ) (dur : ℤ) (d : DevContext) :
    (stallCheck tol dur d).samples_got_nbytes = d.samples_got_nbytes := by
  unfold stallCheck
  split <;> rfl

theorem stallCheck_need (tol : ℚ) (dur : ℤ) (d : DevContext) :
    (stallCheck tol dur d).samples_need_nbytes = d.samples_need_nbytes := by
  unfold stallCheck
  split <;> rfl

theorem stallCheck_completed (tol : ℚ) (dur : ℤ) (d : DevContext) :
    (stallCheck tol dur d).num_transfers_completed = d.num_transfers_completed := by
  unfold stallCheck
  split <;> rfl

theorem stallCheck_transfers (tol : ℚ) (dur : ℤ) (d : DevContext) :
    (stallCheck tol dur d).transfers = d.transfers := by
  unfold stallCheck
  split <;> rfl

theorem stallCheck_aborted (tol : ℚ) (dur : ℤ) (d : DevContext) :
    (stallCheck tol dur d).acq_aborted = d.acq_aborted := by
  unfold stallCheck
  split <;> rfl

theorem stallCheck_used_le (tol : ℚ) (dur : ℤ) (d : DevContext) :
    (stallCheck tol dur d).num_transfers_used ≤ d.num_transfers_used := by
  unfold stallCheck
  split <;> simp

/-- When the stall condition of protocol.c:101 holds, the check forces
the pool to zero outstanding. -/
theorem stallCheck_fires (tol : ℚ) (dur : ℤ) (d : DevContext)
    (h1 : d.num_transfers_completed ≠ 0)
    (h2 : (dur : ℚ) / 1000 > (tol + 1) * (d.per_transfer_duration : ℚ)) :
    stallCheck tol dur d = { d with num_transfers_used := 0 } := by
  unfold stallCheck
  rw [if_pos ⟨h1, h2⟩]

theorem globalChecks_got (tol : ℚ) (dur : ℤ) (d : DevContext) :
    (globalChecks tol dur d).samples_got_nbytes = d.samples_got_nbytes := by
  simp only [globalChecks, sipeed_slogic_acquisition_stop]
  split_ifs <;> simp [stallCheck_got]

theorem globalChecks_need (tol : ℚ) (dur : ℤ) (d : DevContext) :
    (globalChecks tol dur d).samples_need_nbytes = d.samples_need_nbytes := by
  simp only [globalChecks, sipeed_slogic_acquisition_stop]
  split_ifs <;> simp [stallCheck_need]

theorem globalChecks_completed (tol : ℚ) (dur : ℤ) (d : DevContext) :
    (globalChecks tol dur d).num_transfers_completed = d.num_transfers_completed + 1 := by
  simp only [globalChecks, sipeed_slogic_acquisition_stop]
  split_ifs <;> simp [stallCheck_completed]

theorem globalChecks_transfers (tol : ℚ) (dur : ℤ) (d : DevContext) :
    (globalChecks tol dur d).transfers = d.transfers := by
  simp only [globalChecks, sipeed_slogic_acquisition_stop]
  split_ifs <;> simp [stallCheck_transfers]

theorem globalChecks_used_le (tol : ℚ) (dur : ℤ) (d : DevContext) :
    (globalChecks tol dur d).num_transfers_used ≤ d.num_transfers_used := by
  simp only [globalChecks, sipeed_slogic_acquisition_stop]
  split_ifs <;> simp [stallCheck_used_le tol dur d]

/-- If the switch left zero transfers outstanding, the tail of the
callback latches the abort flag (protocol.c:109-111). -/
theorem globalChecks_used_zero (tol : ℚ) (dur : ℤ) (d : DevContext)
    (h : d.num_transfers_used = 0) :
    (globalChecks tol dur d).num_transfers_used = 0 ∧
      (globalChecks tol dur d).acq_aborted = true := by
  simp only [globalChecks, sipeed_slogic_acquisition_stop]
  have hu : (stallCheck tol dur d).num_transfers_used = 0 := by
    have := stallCheck_used_le tol dur d
    omega
  rw [if_pos hu]
  exact ⟨hu, rfl⟩

/-- If the stall condition holds at the tail, the pool is forced to zero
outstanding and the abort flag is latched whatever the switch did to the
counter, provided the switch preserved `num_transfers_completed` and
`per_transfer_duration` (which every arm does). -/
theorem globalChecks_stall (tol : ℚ) (dur : ℤ) (d : DevContext)
    (h1 : d.num_transfers_completed ≠ 0)
    (h2 : (dur : ℚ) / 1000 > (tol + 1) * (d.per_transfer_duration : ℚ)) :
    (globalChecks tol dur d).num_transfers_used = 0 ∧
      (globalChecks tol dur d).acq_aborted = true := by
  simp only [globalChecks, sipeed_slogic_acquisition_stop]
  rw [stallCheck_fires tol dur d h1 h2]
  simp

/-! ### Case and projection lemmas for the switch and the whole callback -/

theorem switchStep_need (devc : DevContext) (t : Transfer) (now : ℤ) (s : Bool) :
    (switchStep devc t now s).1.samples_need_nbytes = devc.samples_need_nbytes := by
  obtain ⟨st, len⟩ := t
  cases st <;> first
    | exact handleCompleted_need _ _ _ _
    | rfl

theorem switchStep_completed (devc : DevContext) (t : Transfer) (now : ℤ) (s : Bool) :
    (switchStep devc t now s).1.num_transfers_completed = devc.num_transfers_completed := by
  obtain ⟨st, len⟩ := t
  cases st <;> first
    | exact handleCompleted_completed _ _ _ _
    | rfl

theorem switchStep_duration (devc : DevContext) (t : Transfer) (now : ℤ) (s : Bool) :
    (switchStep devc t now s).1.per_transfer_duration = devc.per_transfer_duration := by
  obtain ⟨st, len⟩ := t
  cases st <;> first
    | exact handleCompleted_duration _ _ _ _
    | rfl

theorem switchStep_transfers (devc : DevContext) (t : Transfer) (now : ℤ) (s : Bool) :
    (switchStep devc t now s).1.transfers = devc.transfers := by
  obtain ⟨st, len⟩ := t
  cases st <;> first
    | exact handleCompleted_transfers _ _ _ _
    | rfl

theorem switchStep_used_le (devc : DevContext) (t : Transfer) (now : ℤ) (s : Bool) :
    (switchStep devc t now s).1.num_transfers_used ≤ max devc.num_transfers_used 1 := by
  obtain ⟨st, len⟩ := t
  cases st <;> first
    | exact handleCompleted_used_le _ _ _ _
    | (simp only [switchStep]; omega)

/-- The switch either leaves `samples_got_nbytes` unchanged (fatal and
default arms) or adds the clamped length (data arm). -/
theorem switchStep_got (devc : DevContext) (t : Transfer) (now : ℤ) (s : Bool) :
    (switchStep devc t now s).1.samples_got_nbytes = devc.samples_got_nbytes ∨
      (switchStep devc t now s).1.samples_got_nbytes =
        devc.samples_got_nbytes +
          clampLen devc.samples_need_nbytes devc.samples_got_nbytes t.actual_length := by
  obtain ⟨st, len⟩ := t
  cases st <;> first
    | exact Or.inr (handleCompleted_got _ _ _ _)
    | exact Or.inl rfl

/-- If the abort latch is set at entry, the callback returns immediately
with the context untouched, nothing forwarded and nothing resubmitted
(protocol.c:39-40). -/
theorem receive_transfer_aborted (tol : ℚ) (devc : DevContext) (t : Transfer)
    (now : ℤ) (s : Bool) (h : devc.acq_aborted = true) :
    receive_transfer tol devc t now s = ⟨devc, false, none⟩ := by
  simp only [receive_transfer]
  rw [if_pos h]

theorem receive_transfer_need (tol : ℚ) (devc : DevContext) (t : Transfer)
    (now : ℤ) (s : Bool) :
    (receive_transfer tol devc t now s).devc.samples_need_nbytes =
      devc.samples_need_nbytes := by
  simp only [receive_transfer]
  split
  · rfl
  · rw [globalChecks_need, switchStep_need]

theorem receive_transfer_transfers (tol : ℚ) (devc : DevContext) (t : Transfer)
    (now : ℤ) (s : Bool) :
    (receive_transfer tol devc t now s).devc.transfers = devc.transfers := by
  simp only [receive_transfer]
  split
  · rfl
  · rw [globalChecks_transfers, switchStep_transfers]

/-- One callback invocation never decreases `samples_got_nbytes` and
keeps it at or below `samples_need_nbytes`. -/
theorem receive_transfer_got_step (tol : ℚ) (devc : DevContext) (t : Transfer)
    (now : ℤ) (s : Bool) (h : devc.samples_got_nbytes ≤ devc.samples_need_nbytes) :
    devc.samples_got_nbytes ≤ (receive_transfer tol devc t now s).devc.samples_got_nbytes ∧
      (receive_transfer tol devc t now s).devc.samples_got_nbytes ≤
        devc.samples_need_nbytes := by
  simp only [receive_transfer]
  split
  · exact ⟨le_refl _, h⟩
  · rw [globalChecks_got]
    rcases switchStep_got devc t now s with hg | hg <;> rw [hg]
    · exact ⟨le_refl _, h⟩
    · have := clampLen_le_sub devc.samples_need_nbytes devc.samples_got_nbytes t.actual_length
      omega

theorem receive_transfer_used_le (tol : ℚ) (cap : ℕ) (devc : DevContext) (t : Transfer)
    (now : ℤ) (s : Bool) (hcap : 1 ≤ cap) (h : devc.num_transfers_used ≤ cap) :
    (receive_transfer tol devc t now s).devc.num_transfers_used ≤ cap := by
  simp only [receive_transfer]
  split
  · exact h
  · dsimp only
    have h1 := globalChecks_used_le tol (now - devc.transfers_reached_time_latest)
      (switchStep devc t now s).1
    have h2 := switchStep_used_le devc t now s
    omega

/-! ### Trace lemmas -/

theorem runTrace_nil (tol : ℚ) (devc : DevContext) : runTrace tol devc [] = devc := rfl

theorem runTrace_cons (tol : ℚ) (devc : DevContext) (e : Event) (evs : List Event) :
    runTrace tol devc (e :: evs) =
      runTrace tol
        (receive_transfer tol devc ⟨e.status, e.actual_length⟩ e.now e.submitOk).devc
        evs := rfl

theorem runTrace_append (tol : ℚ) (devc : DevContext) (l1 l2 : List Event) :
    runTrace tol devc (l1 ++ l2) = runTrace tol (runTrace tol devc l1) l2 :=
  List.foldl_append _ _ _ _

theorem runTrace_need (tol : ℚ) (devc : DevContext) (evs : List Event) :
    (runTrace tol devc evs).samples_need_nbytes = devc.samples_need_nbytes := by
  induction evs generalizing devc with
  | nil => rfl
  | cons e evs ih =>
    rw [runTrace_cons, ih, receive_transfer_need]

theorem runTrace_transfers (tol : ℚ) (devc : DevContext) (evs : List Event) :
    (runTrace tol devc evs).transfers = devc.transfers := by
  induction evs generalizing devc with
  | nil => rfl
  | cons e evs ih =>
    rw [runTrace_cons, ih, receive_transfer_transfers]

theorem runTrace_got_invariant (tol : ℚ) (devc : DevContext) (evs : List Event)
    (h : devc.samples_got_nbytes ≤ devc.samples_need_nbytes) :
    devc.samples_got_nbytes ≤ (runTrace tol devc evs).samples_got_nbytes ∧
      (runTrace tol devc evs).samples_got_nbytes ≤ devc.samples_need_nbytes := by
  induction evs generalizing devc with
  | nil => exact ⟨le_refl _, h⟩
  | cons e evs ih =>
    rw [runTrace_cons]
    have hstep := receive_transfer_got_step tol devc ⟨e.status, e.actual_length⟩
      e.now e.submitOk h
    have hneed := receive_transfer_need tol devc ⟨e.status, e.actual_length⟩
      e.now e.submitOk
    have hrec := ih (receive_transfer tol devc ⟨e.status, e.actual_length⟩
      e.now e.submitOk).devc (by omega)
    omega

theorem runTrace_used_le (tol : ℚ) (cap : ℕ) (devc : DevContext) (evs : List Event)
    (hcap : 1 ≤ cap) (h : devc.num_transfers_used ≤ cap) :
    (runTrace tol devc evs).num_transfers_used ≤ cap := by
  induction evs generalizing devc with
  | nil => exact h
  | cons e evs ih =>
    rw [runTrace_cons]
    exact ih _ (receive_transfer_used_le tol cap devc ⟨e.status, e.actual_length⟩
      e.now e.submitOk hcap h)

/-! ### Unfolding equations and the main invariant of the fill loop -/

theorem fillPool_stop (cap : ℕ) (tol : ℚ) (outcomes : ℕ → FillOutcome)
    (devc : DevContext) (h : ¬ fillGuard cap devc) :
    fillPool cap tol outcomes devc = (devc, []) := by
  rw [fillPool, dif_neg h]

theorem fillPool_fail (cap : ℕ) (tol : ℚ) (outcomes : ℕ → FillOutcome)
    (devc : DevContext) (h : fillGuard cap devc)
    (ho : outcomes devc.num_transfers_used ≠ .ok) :
    fillPool cap tol outcomes devc = (devc, []) := by
  rw [fillPool, dif_pos h]
  rcases hoc : outcomes devc.num_transfers_used <;> simp_all

theorem fillPool_ok (cap : ℕ) (tol : ℚ) (outcomes : ℕ → FillOutcome)
    (devc : DevContext) (h : fillGuard cap devc)
    (ho : outcomes devc.num_transfers_used = .ok) :
    fillPool cap tol outcomes devc =
      ((fillPool cap tol outcomes (fillNext devc)).1,
       ⟨devc.num_transfers_used,
        fillTimeout tol devc.per_transfer_duration devc.num_transfers_used⟩ ::
         (fillPool cap tol outcomes (fillNext devc)).2) := by
  rw [fillPool, dif_pos h, ho]

theorem fillPool_fields (cap : ℕ) (tol : ℚ) (outcomes : ℕ → FillOutcome) :
    ∀ (n : ℕ) (devc : DevContext), cap - devc.num_transfers_used = n →
      (fillPool cap tol outcomes devc).1.samples_got_nbytes = devc.samples_got_nbytes ∧
      (fillPool cap tol outcomes devc).1.samples_need_nbytes = devc.samples_need_nbytes ∧
      (fillPool cap tol outcomes devc).1.per_transfer_nbytes = devc.per_transfer_nbytes ∧
      (fillPool cap tol outcomes devc).1.per_transfer_duration = devc.per_transfer_duration ∧
      (fillPool cap tol outcomes devc).1.acq_aborted = devc.acq_aborted ∧
      (fillPool cap tol outcomes devc).1.transfers.length = devc.transfers.length := by
  intro n
  induction n with
  | zero =>
    intro devc hn
    have hg : ¬ fillGuard cap devc := by
      unfold fillGuard
      omega
    rw [fillPool_stop _ _ _ _ hg]
    exact ⟨rfl, rfl, rfl, rfl, rfl, rfl⟩
  | succ n ih =>
    intro devc hn
    by_cases hg : fillGuard cap devc
    · cases ho : outcomes devc.num_transfers_used with
      | ok =>
        rw [fillPool_ok _ _ _ _ hg ho]
        have hrec := ih (fillNext devc) (by simp [fillNext]; omega)
        simpa [fillNext] using hrec
      | bufAllocFail =>
        rw [fillPool_fail _ _ _ _ hg (by simp [ho])]
        exact ⟨rfl, rfl, rfl, rfl, rfl, rfl⟩
      | transferAllocFail =>
        rw [fillPool_fail _ _ _ _ hg (by simp [ho])]
        exact ⟨rfl, rfl, rfl, rfl, rfl, rfl⟩
      | submitFail =>
        rw [fillPool_fail _ _ _ _ hg (by simp [ho])]
        exact ⟨rfl, rfl, rfl, rfl, rfl, rfl⟩
    · rw [fillPool_stop _ _ _ _ hg]
      exact ⟨rfl, rfl, rfl, rfl, rfl, rfl⟩

theorem fillPool_used (cap : ℕ) (tol : ℚ) (outcomes : ℕ → FillOutcome) :
    ∀ (n : ℕ) (devc : DevContext), cap - devc.num_transfers_used = n →
      (fillPool cap tol outcomes devc).1.num_transfers_used =
        devc.num_transfers_used + (fillPool cap tol outcomes devc).2.length := by
  intro n
  induction n with
  | zero =>
    intro devc hn
    have hg : ¬ fillGuard cap devc := by
      unfold fillGuard
      omega
    rw [fillPool_stop _ _ _ _ hg]
    simp
  | succ n ih =>
    intro devc hn
    by_cases hg : fillGuard cap devc
    · cases ho : outcomes devc.num_transfers_used with
      | ok =>
        rw [fillPool_ok _ _ _ _ hg ho]
        have hrec := ih (fillNext devc) (by simp [fillNext]; omega)
        simp [fillNext] at hrec ⊢
        omega
      | bufAllocFail =>
        rw [fillPool_fail _ _ _ _ hg (by simp [ho])]
        simp
      | transferAllocFail =>
        rw [fillPool_fail _ _ _ _ hg (by simp [ho])]
        simp
      | submitFail =>
        rw [fillPool_fail _ _ _ _ hg (by simp [ho])]
        simp
    · rw [fillPool_stop _ _ _ _ hg]
      simp

theorem fillNext_used (devc : DevContext) :
    (fillNext devc).num_transfers_used = devc.num_transfers_used + 1 := rfl

theorem fillNext_duration (devc : DevContext) :
    (fillNext devc).per_transfer_duration = devc.per_transfer_duration := rfl

theorem fillNext_got (devc : DevContext) :
    (fillNext devc).samples_got_nbytes = devc.samples_got_nbytes := rfl

theorem fillNext_need (devc : DevContext) :
    (fillNext devc).samples_need_nbytes = devc.samples_need_nbytes := rfl

theorem fillNext_per (devc : DevContext) :
    (fillNext devc).per_transfer_nbytes = devc.per_transfer_nbytes := rfl

theorem fillPool_submissions (cap : ℕ) (tol : ℚ) (outcomes : ℕ → FillOutcome) :
    ∀ (n : ℕ) (devc : DevContext), cap - devc.num_transfers_used = n →
      ∀ (k : ℕ) (hk : k < (fillPool cap tol outcomes devc).2.length),
        (fillPool cap tol outcomes devc).2.get ⟨k, hk⟩ =
          ⟨devc.num_transfers_used + k,
           fillTimeout tol devc.per_transfer_duration (devc.num_transfers_used + k)⟩ ∧
        devc.num_transfers_used + k < cap ∧
        devc.samples_got_nbytes +
            (devc.num_transfers_used + k) * devc.per_transfer_nbytes
          < devc.samples_need_nbytes := by
  intro n
  induction n with
  | zero =>
    intro devc hn k hk
    have hg : ¬ fillGuard cap devc := by
      unfold fillGuard
      omega
    rw [fillPool_stop _ _ _ _ hg] at hk
    exact absurd hk (by simp)
  | succ n ih =>
    intro devc hn k hk
    by_cases hg : fillGuard cap devc
    · cases ho : outcomes devc.num_transfers_used with
      | ok =>
        have heq := fillPool_ok cap tol outcomes devc hg ho
        cases k with
        | zero =>
          refine ⟨?_, by simpa using hg.1, by simpa using hg.2⟩
          have : (fillPool cap tol outcomes devc).2.get ⟨0, hk⟩ =
              (⟨devc.num_transfers_used,
                fillTimeout tol devc.per_transfer_duration devc.num_transfers_used⟩ :
                Submission) := by
            simp [heq]
          simpa using this
        | succ k =>
          have hk2 : k < (fillPool cap tol outcomes (fillNext devc)).2.length := by
            have := hk
            rw [heq] at this
            simpa using this
          have hrec := ih (fillNext devc) (by rw [fillNext_used]; omega) k hk2
          rw [fillNext_used, fillNext_duration, fillNext_got, fillNext_need,
            fillNext_per] at hrec
          have hget : (fillPool cap tol outcomes devc).2.get ⟨k + 1, hk⟩ =
              (fillPool cap tol outcomes (fillNext devc)).2.get ⟨k, hk2⟩ := by
            simp [heq]
          have harith : devc.num_transfers_used + 1 + k =
              devc.num_transfers_used + (k + 1) := by omega
          rw [harith] at hrec
          rw [hget]
          exact hrec
      | bufAllocFail =>
        rw [fillPool_fail _ _ _ _ hg (by simp [ho])] at hk
        exact absurd hk (by simp)
      | transferAllocFail =>
        rw [fillPool_fail _ _ _ _ hg (by simp [ho])] at hk
        exact absurd hk (by simp)
      | submitFail =>
        rw [fillPool_fail _ _ _ _ hg (by simp [ho])] at hk
        exact absurd hk (by simp)
    · rw [fillPool_stop _ _ _ _ hg] at hk
      exact absurd hk (by simp)

theorem fillPool_stops (cap : ℕ) (tol : ℚ) (outcomes : ℕ → FillOutcome) :
    ∀ (n : ℕ) (devc : DevContext), cap - devc.num_transfers_used = n →
      fillGuard cap (fillPool cap tol outcomes devc).1 →
      outcomes (fillPool cap tol outcomes devc).1.num_transfers_used ≠ .ok := by
  intro n
  induction n with
  | zero =>
    intro devc hn
    have hg : ¬ fillGuard cap devc := by
      unfold fillGuard
      omega
    rw [fillPool_stop _ _ _ _ hg]
    exact fun h => absurd h hg
  | succ n ih =>
    intro devc hn
    by_cases hg : fillGuard cap devc
    · cases ho : outcomes devc.num_transfers_used with
      | ok =>
        rw [fillPool_ok _ _ _ _ hg ho]
        exact ih (fillNext devc) (by simp [fillNext]; omega)
      | bufAllocFail =>
        rw [fillPool_fail _ _ _ _ hg (by simp [ho])]
        intro _
        simp [ho]
      | transferAllocFail =>
        rw [fillPool_fail _ _ _ _ hg (by simp [ho])]
        intro _
        simp [ho]
      | submitFail =>
        rw [fillPool_fail _ _ _ _ hg (by simp [ho])]
        intro _
        simp [ho]
    · rw [fillPool_stop _ _ _ _ hg]
      exact fun h => absurd h hg

/-! ### Probe-loop lemmas -/

theorem roundup32k_dvd (n : ℕ) : 2 * 16 * 1024 ∣ roundup32k n :=
  Dvd.intro_left _ rfl

theorem roundup32k_pos_ge (n : ℕ) (h : 0 < n) : 2 * 16 * 1024 ≤ roundup32k n := by
  unfold roundup32k
  have h1 : 1 ≤ (n + (2 * 16 * 1024 - 1)) / (2 * 16 * 1024) := by
    apply Nat.one_le_div_iff (by norm_num) |>.mpr
    omega
  calc 2 * 16 * 1024 = 1 * (2 * 16 * 1024) := by ring
  _ ≤ (n + (2 * 16 * 1024 - 1)) / (2 * 16 * 1024) * (2 * 16 * 1024) :=
      Nat.mul_le_mul_right _ h1

/-- Every value the probe loop can accept is a positive multiple of
16 KiB: each exit path returns half of a 32 KiB-rounded positive
value. -/
theorem probeLoop_accepted_shape (rate ch : ℕ) (outcomes : ℕ → ProbeOutcome) :
    ∀ (nbytes : ℕ), 0 < nbytes → ∀ (i dur v d : ℕ),
      probeLoop rate ch outcomes i nbytes dur = some (v, d) →
      16 * 1024 ∣ v ∧ 16 * 1024 ≤ v := by
  intro nbytes
  induction nbytes using Nat.strong_induction_on with
  | _ nbytes ih =>
    intro hpos i dur v d heq
    have hdvd := roundup32k_dvd nbytes
    have hge := roundup32k_pos_ge nbytes hpos
    obtain ⟨q, hq⟩ := hdvd
    have hq1 : 1 ≤ q := by nlinarith
    have hhalf : roundup32k nbytes / 2 = 16 * 1024 * q := by
      rw [hq]
      omega
    rw [probeLoop] at heq
    cases ho : outcomes i with
    | allocFail =>
      rw [ho] at heq
      simp only at heq
      split at heq
      · next hcond =>
        have hlt : roundup32k nbytes / 2 < nbytes := by
          have hle : roundup32k nbytes ≤ nbytes + (2 * 16 * 1024 - 1) :=
            Nat.div_mul_le_self _ _
          omega
        exact ih _ hlt (by omega) _ _ _ _ heq
      · next hcond =>
        obtain ⟨hv, _⟩ := Prod.mk.injEq .. ▸ (Option.some.injEq .. ▸ heq)
        exact ⟨hv ▸ ⟨q, by omega⟩, hv ▸ by omega⟩
    | submitNoMem =>
      rw [ho] at heq
      simp only at heq
      split at heq
      · next hcond =>
        have hlt : roundup32k nbytes / 2 < nbytes := by
          have hle : roundup32k nbytes ≤ nbytes + (2 * 16 * 1024 - 1) :=
            Nat.div_mul_le_self _ _
          omega
        exact ih _ hlt (by omega) _ _ _ _ heq
      · next hcond =>
        obtain ⟨hv, _⟩ := Prod.mk.injEq .. ▸ (Option.some.injEq .. ▸ heq)
        exact ⟨hv ▸ ⟨q, by omega⟩, hv ▸ by omega⟩
    | submitOtherErr =>
      rw [ho] at heq
      simp at heq
    | submitOk =>
      rw [ho] at heq
      simp only at heq
      obtain ⟨hv, _⟩ := Prod.mk.injEq .. ▸ (Option.some.injEq .. ▸ heq)
      exact ⟨hv ▸ ⟨q, by omega⟩, hv ▸ by omega⟩

/-- The probe loop returns the `SR_ERR_IO` outcome only when some trial
submission failed with an error other than out-of-memory. -/
theorem probeLoop_none_reason (rate ch : ℕ) (outcomes : ℕ → ProbeOutcome) :
    ∀ (nbytes i dur : ℕ),
      probeLoop rate ch outcomes i nbytes dur = none →
      ∃ j, outcomes j = .submitOtherErr := by
  intro nbytes
  induction nbytes using Nat.strong_induction_on with
  | _ nbytes ih =>
    intro i dur heq
    rw [probeLoop] at heq
    cases ho : outcomes i with
    | allocFail =>
      rw [ho] at heq
      simp only at heq
      split at heq
      · next hcond =>
        have hlt : roundup32k nbytes / 2 < nbytes := by
          have hle : roundup32k nbytes ≤ nbytes + (2 * 16 * 1024 - 1) :=
            Nat.div_mul_le_self _ _
          omega
        exact ih _ hlt _ _ heq
      · exact absurd heq (by simp)
    | submitNoMem =>
      rw [ho] at heq
      simp only at heq
      split at heq
      · next hcond =>
        have hlt : roundup32k nbytes / 2 < nbytes := by
          have hle : roundup32k nbytes ≤ nbytes + (2 * 16 * 1024 - 1) :=
            Nat.div_mul_le_self _ _
          omega
        exact ih _ hlt _ _ heq
      · exact absurd heq (by simp)
    | submitOtherErr => exact ⟨i, ho⟩
    | submitOk =>
      rw [ho] at heq
      exact absurd heq (by simp)

/-- A further tail lemma: when the stall condition does not hold, the
tail of the callback leaves `num_transfers_used` as the switch left
it. -/
theorem globalChecks_used_of_not_stall (tol : ℚ) (dur : ℤ) (d : DevContext)
    (h : ¬ (d.num_transfers_completed ≠ 0 ∧
        (dur : ℚ) / 1000 > (tol + 1) * (d.per_transfer_duration : ℚ))) :
    (globalChecks tol dur d).num_transfers_used = d.num_transfers_used := by
  simp only [globalChecks, sipeed_slogic_acquisition_stop]
  have hsc : stallCheck tol dur d = d := by
    unfold stallCheck
    rw [if_neg h]
  rw [hsc]
  split_ifs <;> rfl

/-! ### Example states used by the concrete witnesses and
counterexamples -/

/-- A small concrete device context partway through an acquisition:
three outstanding transfers, nothing aborted, no completion counted
yet. -/
def exDev : DevContext :=
  { samples_got_nbytes := 0, samples_need_nbytes := 1000,
    per_transfer_nbytes := 100, per_transfer_duration := 125,
    num_transfers_used := 3, num_transfers_completed := 0,
    acq_aborted := false, transfers_reached_nbytes := 0,
    transfers_reached_nbytes_latest := 0, transfers_reached_time_start := 0,
    transfers_reached_time_latest := 0,
    cur_pattern_mode_is_test_max_speed := false,
    transfers := [true, true, true, false] }

/-- C1: throughout an acquisition, `samples_got_nbytes` is
non-decreasing across every completion-handler invocation and never
exceeds `samples_need_nbytes`: from any state satisfying the byte
invariant, after any prefix of a completion sequence the counter is at
most the counter after the full sequence, and the counter never exceeds
the (unchanged) byte need. -/
theorem C1_bytesReceived_monotone_and_bounded (tol : ℚ) (devc : DevContext)
    (l1 l2 : List Event)
    (h : devc.samples_got_nbytes ≤ devc.samples_need_nbytes) :
    (runTrace tol devc l1).samples_got_nbytes ≤
        (runTrace tol devc (l1 ++ l2)).samples_got_nbytes ∧
      (runTrace tol devc (l1 ++ l2)).samples_got_nbytes ≤
        (runTrace tol devc (l1 ++ l2)).samples_need_nbytes := by
  have h1 := runTrace_got_invariant tol devc l1 h
  have hneed1 := runTrace_need tol devc l1
  rw [runTrace_append]
  have h2 := runTrace_got_invariant tol (runTrace tol devc l1) l2 (by omega)
  have hneed2 := runTrace_need tol (runTrace tol devc l1) l2
  omega

theorem C1_witness :
    (runTrace 0 exDev [⟨.completed, 50, 100, true⟩]).samples_got_nbytes ≤
        (runTrace 0 exDev ([⟨.completed, 50, 100, true⟩] ++
          [⟨.completed, 5000, 200, true⟩])).samples_got_nbytes ∧
      (runTrace 0 exDev ([⟨.completed, 50, 100, true⟩] ++
          [⟨.completed, 5000, 200, true⟩])).samples_got_nbytes ≤
        (runTrace 0 exDev ([⟨.completed, 50, 100, true⟩] ++
          [⟨.completed, 5000, 200, true⟩])).samples_need_nbytes :=
  C1_bytesReceived_monotone_and_bounded 0 exDev
    [⟨.completed, 50, 100, true⟩] [⟨.completed, 5000, 200, true⟩] (by decide)

/-- C4: `num_transfers_used` never exceeds `NUM_MAX_TRANSFERS` (`cap`)
and at most `cap` slots of the fixed `transfers` array are non-empty:
this holds after the initial fill, is preserved by every
completion-handler invocation, and by the abort teardown of
`handle_events`. -/
theorem C4_pool_capacity_bound (cap : ℕ) (tol : ℚ) (outcomes : ℕ → FillOutcome)
    (devc : DevContext) (evs : List Event)
    (hcap : 1 ≤ cap) (hused : devc.num_transfers_used ≤ cap)
    (hlen : devc.transfers.length = cap) :
    ((fillPool cap tol outcomes devc).1.num_transfers_used ≤ cap ∧
      (fillPool cap tol outcomes devc).1.transfers.countP id ≤ cap) ∧
    ((runTrace tol (fillPool cap tol outcomes devc).1 evs).num_transfers_used ≤ cap ∧
      (runTrace tol (fillPool cap tol outcomes devc).1 evs).transfers.countP id ≤ cap) ∧
    ((handle_events_teardown
        (runTrace tol (fillPool cap tol outcomes devc).1 evs)).num_transfers_used ≤ cap ∧
      (handle_events_teardown
        (runTrace tol (fillPool cap tol outcomes devc).1 evs)).transfers.countP id ≤ cap) := by
  have hfields := fillPool_fields cap tol outcomes (cap - devc.num_transfers_used) devc rfl
  have husedEq := fillPool_used cap tol outcomes (cap - devc.num_transfers_used) devc rfl
  have hfillUsed : (fillPool cap tol outcomes devc).1.num_transfers_used ≤ cap := by
    rcases Nat.eq_zero_or_pos (fillPool cap tol outcomes devc).2.length with hz | hp
    · omega
    · have hsub := fillPool_submissions cap tol outcomes (cap - devc.num_transfers_used)
        devc rfl ((fillPool cap tol outcomes devc).2.length - 1) (by omega)
      omega
  have hfillLen : (fillPool cap tol outcomes devc).1.transfers.length = cap := by
    omega
  have htraceUsed := runTrace_used_le tol cap (fillPool cap tol outcomes devc).1 evs
    hcap hfillUsed
  have htraceTr := runTrace_transfers tol (fillPool cap tol outcomes devc).1 evs
  have hcount1 : (fillPool cap tol outcomes devc).1.transfers.countP id ≤ cap := by
    have := List.countP_le_length (l := (fillPool cap tol outcomes devc).1.transfers)
      (p := id)
    omega
  have hcount2 : (runTrace tol (fillPool cap tol outcomes devc).1 evs).transfers.countP id
      ≤ cap := by
    rw [htraceTr]
    exact hcount1
  refine ⟨⟨hfillUsed, hcount1⟩, ⟨htraceUsed, hcount2⟩, ?_, ?_⟩
  · exact htraceUsed
  · have : (handle_events_teardown
        (runTrace tol (fillPool cap tol outcomes devc).1 evs)).transfers.length = cap := by
      simp [handle_events_teardown, htraceTr, hfillLen]
    have hle := List.countP_le_length
      (l := (handle_events_teardown
        (runTrace tol (fillPool cap tol outcomes devc).1 evs)).transfers) (p := id)
    omega

theorem C4_witness :
    (((fillPool 4 0 (fun _ => .ok) exDev).1.num_transfers_used ≤ 4 ∧
      (fillPool 4 0 (fun _ => .ok) exDev).1.transfers.countP id ≤ 4) ∧
    ((runTrace 0 (fillPool 4 0 (fun _ => .ok) exDev).1
        [⟨.stall, 0, 100, true⟩]).num_transfers_used ≤ 4 ∧
      (runTrace 0 (fillPool 4 0 (fun _ => .ok) exDev).1
        [⟨.stall, 0, 100, true⟩]).transfers.countP id ≤ 4) ∧
    ((handle_events_teardown
        (runTrace 0 (fillPool 4 0 (fun _ => .ok) exDev).1
          [⟨.stall, 0, 100, true⟩])).num_transfers_used ≤ 4 ∧
      (handle_events_teardown
        (runTrace 0 (fillPool 4 0 (fun _ => .ok) exDev).1
          [⟨.stall, 0, 100, true⟩])).transfers.countP id ≤ 4)) :=
  C4_pool_capacity_bound 4 0 (fun _ => .ok) exDev [⟨.stall, 0, 100, true⟩]
    (by decide) (by decide) (by decide)

/-- `exDev` with zero transfers outstanding, as at the start of the
initial fill. -/
def exDev0 : DevContext :=
  { exDev with num_transfers_used := 0 }

/-- C5: starting from zero outstanding transfers, the initial fill
submits exactly while `num_transfers_used < cap` and
`samples_got_nbytes + num_transfers_used * per_transfer_nbytes <
samples_need_nbytes`; the `k`-th submission goes to slot `k` with
timeout `(1 + tol) * per_transfer_duration * (k + 2)`; the loop stops
at the first allocation/submission failure (if the guard still held,
the next outcome was a failure) and never touches the abort latch, so
already-outstanding requests proceed. -/
theorem C5_initial_fill_contract (cap : ℕ) (tol : ℚ) (outcomes : ℕ → FillOutcome)
    (devc : DevContext) (h0 : devc.num_transfers_used = 0) :
    (fillPool cap tol outcomes devc).1.num_transfers_used =
        (fillPool cap tol outcomes devc).2.length ∧
      (∀ (k : ℕ) (hk : k < (fillPool cap tol outcomes devc).2.length),
        (fillPool cap tol outcomes devc).2.get ⟨k, hk⟩ =
          ⟨k, (tol + 1) * (devc.per_transfer_duration : ℚ) * ((k : ℚ) + 2)⟩ ∧
        k < cap ∧
        devc.samples_got_nbytes + k * devc.per_transfer_nbytes
          < devc.samples_need_nbytes) ∧
      ((fillPool cap tol outcomes devc).1.num_transfers_used < cap ∧
          (fillPool cap tol outcomes devc).1.samples_got_nbytes +
              (fillPool cap tol outcomes devc).1.num_transfers_used *
                (fillPool cap tol outcomes devc).1.per_transfer_nbytes
            < (fillPool cap tol outcomes devc).1.samples_need_nbytes →
        outcomes (fillPool cap tol outcomes devc).2.length ≠ .ok) ∧
      (fillPool cap tol outcomes devc).1.acq_aborted = devc.acq_aborted := by
  have husedEq := fillPool_used cap tol outcomes (cap - devc.num_transfers_used) devc rfl
  have hfields := fillPool_fields cap tol outcomes (cap - devc.num_transfers_used) devc rfl
  have hstops := fillPool_stops cap tol outcomes (cap - devc.num_transfers_used) devc rfl
  refine ⟨by omega, ?_, ?_, hfields.2.2.2.2.1⟩
  · intro k hk
    have hsub := fillPool_submissions cap tol outcomes (cap - devc.num_transfers_used)
      devc rfl k hk
    rw [h0] at hsub
    simpa [fillTimeout] using hsub
  · intro hguard
    have hg : fillGuard cap (fillPool cap tol outcomes devc).1 := hguard
    have hlen : (fillPool cap tol outcomes devc).1.num_transfers_used =
        (fillPool cap tol outcomes devc).2.length := by omega
    rw [← hlen]
    exact hstops hg

theorem C5_witness :
    ((fillPool 4 0 (fun _ => .ok) exDev0).1.num_transfers_used =
        (fillPool 4 0 (fun _ => .ok) exDev0).2.length ∧
      (∀ (k : ℕ) (hk : k < (fillPool 4 0 (fun _ => .ok) exDev0).2.length),
        (fillPool 4 0 (fun _ => .ok) exDev0).2.get ⟨k, hk⟩ =
          ⟨k, (0 + 1) * (exDev0.per_transfer_duration : ℚ) * ((k : ℚ) + 2)⟩ ∧
        k < 4 ∧
        exDev0.samples_got_nbytes + k * exDev0.per_transfer_nbytes
          < exDev0.samples_need_nbytes) ∧
      ((fillPool 4 0 (fun _ => .ok) exDev0).1.num_transfers_used < 4 ∧
          (fillPool 4 0 (fun _ => .ok) exDev0).1.samples_got_nbytes +
              (fillPool 4 0 (fun _ => .ok) exDev0).1.num_transfers_used *
                (fillPool 4 0 (fun _ => .ok) exDev0).1.per_transfer_nbytes
            < (fillPool 4 0 (fun _ => .ok) exDev0).1.samples_need_nbytes →
        (fun _ => FillOutcome.ok) (fillPool 4 0 (fun _ => .ok) exDev0).2.length ≠
          FillOutcome.ok) ∧
      (fillPool 4 0 (fun _ => .ok) exDev0).1.acq_aborted = exDev0.acq_aborted) :=
  C5_initial_fill_contract 4 0 (fun _ => .ok) exDev0 (by decide)

/-- C6: a completion observed with overflow, stall or no-device status
forces `num_transfers_used` to zero and latches the abort flag via
`sipeed_slogic_acquisition_stop`, whatever the rest of the state — a
single such event aborts the whole session. -/
theorem C6_fatal_status_aborts_session (tol : ℚ) (devc : DevContext) (t : Transfer)
    (now : ℤ) (s : Bool) (hab : devc.acq_aborted = false)
    (hst : t.status = .overflow ∨ t.status = .stall ∨ t.status = .noDevice) :
    (receive_transfer tol devc t now s).devc.num_transfers_used = 0 ∧
      (receive_transfer tol devc t now s).devc.acq_aborted = true := by
  simp only [receive_transfer]
  rw [if_neg (by simp [hab])]
  dsimp only
  have h1 : (switchStep devc t now s).1.num_transfers_used = 0 := by
    obtain ⟨st, len⟩ := t
    simp only at hst
    rcases hst with h | h | h <;> (subst h; rfl)
  exact globalChecks_used_zero tol _ _ h1

theorem C6_witness :
    (receive_transfer 0 exDev ⟨.stall, 0⟩ 100 true).devc.num_transfers_used = 0 ∧
      (receive_transfer 0 exDev ⟨.stall, 0⟩ 100 true).devc.acq_aborted = true :=
  C6_fatal_status_aborts_session 0 exDev ⟨.stall, 0⟩ 100 true (by decide)
    (Or.inr (Or.inl rfl))

/-- C7: on any completion when at least one completion has already been
counted and the monotonic gap since the previous completion exceeds
`(1 + tol) * per_transfer_duration` milliseconds, the handler forces
`num_transfers_used` to zero and latches the abort flag — whatever the
transfer's own status (including `completed`). -/
theorem C7_gap_timeout_aborts_session (tol : ℚ) (devc : DevContext) (t : Transfer)
    (now : ℤ) (s : Bool) (hab : devc.acq_aborted = false)
    (hc : devc.num_transfers_completed ≠ 0)
    (hgap : ((now - devc.transfers_reached_time_latest : ℤ) : ℚ) / 1000 >
      (tol + 1) * (devc.per_transfer_duration : ℚ)) :
    (receive_transfer tol devc t now s).devc.num_transfers_used = 0 ∧
      (receive_transfer tol devc t now s).devc.acq_aborted = true := by
  simp only [receive_transfer]
  rw [if_neg (by simp [hab])]
  dsimp only
  apply globalChecks_stall
  · rw [switchStep_completed]
    exact hc
  · rw [switchStep_duration]
    exact hgap

theorem C7_witness :
    (receive_transfer 0 { exDev with num_transfers_completed := 1 }
        ⟨.completed, 100⟩ 1000000 true).devc.num_transfers_used = 0 ∧
      (receive_transfer 0 { exDev with num_transfers_completed := 1 }
        ⟨.completed, 100⟩ 1000000 true).devc.acq_aborted = true :=
  C7_gap_timeout_aborts_session 0 { exDev with num_transfers_completed := 1 }
    ⟨.completed, 100⟩ 1000000 true (by decide) (by decide)
    (by norm_num [exDev])

/-- `exDev` with five transfers outstanding and one completion already
counted: the state of the C8 counterexample. -/
def exDevStalled : DevContext :=
  { exDev with num_transfers_used := 5, num_transfers_completed := 1 }

/-- `exDev` with the abort latch set and five completions counted: the
state of the C9 counterexample. -/
def exDevLatched : DevContext :=
  { exDev with acq_aborted := true, num_transfers_completed := 5 }

/-- C8 as stated is refuted: a zero-clamped-length completion does not
always leave `num_transfers_used = old - 1`, because the unconditional
cross-pool stall check can force the counter to zero instead.  Concrete
input: five outstanding, one completion already counted, gap 1000 ms >
(1+0)*125 ms, status completed, `actual_length = 0`. -/
theorem C8_counterexample :
    clampLen exDevStalled.samples_need_nbytes exDevStalled.samples_got_nbytes 0 = 0 ∧
    ¬ ((receive_transfer 0 exDevStalled ⟨.completed, 0⟩ 1000000
          true).devc.num_transfers_used =
        exDevStalled.num_transfers_used - 1) := by
  refine ⟨by decide, ?_⟩
  have hused : (receive_transfer 0 exDevStalled ⟨.completed, 0⟩ 1000000
      true).devc.num_transfers_used = 0 := by
    simp only [receive_transfer]
    rw [if_neg (by decide)]
    dsimp only
    refine (globalChecks_stall 0 _ _ ?_ ?_).1
    · rw [switchStep_completed]
      decide
    · rw [switchStep_duration]
      norm_num [exDevStalled, exDev]
  rw [hused]
  decide

/-- C8 amended: on a completed/timed-out completion whose clamped
length is zero, the handler never resubmits and leaves
`samples_got_nbytes` unchanged; and unless the separately-specified
cross-pool stall check fires (a completion already counted and the gap
above `(1+tol) * per_transfer_duration` ms), the slot is retired by
decrementing `num_transfers_used` by one. -/
theorem C8_amended_zero_length_retires (tol : ℚ) (devc : DevContext) (t : Transfer)
    (now : ℤ) (s : Bool) (hab : devc.acq_aborted = false)
    (hst : t.status = .completed ∨ t.status = .timedOut)
    (hlen : clampLen devc.samples_need_nbytes devc.samples_got_nbytes t.actual_length = 0) :
    (receive_transfer tol devc t now s).resubmitted = false ∧
      (receive_transfer tol devc t now s).devc.samples_got_nbytes =
        devc.samples_got_nbytes ∧
      ((devc.num_transfers_completed = 0 ∨
          ¬ (((now - devc.transfers_reached_time_latest : ℤ) : ℚ) / 1000 >
            (tol + 1) * (devc.per_transfer_duration : ℚ))) →
        (receive_transfer tol devc t now s).devc.num_transfers_used =
          devc.num_transfers_used - 1) := by
  simp only [receive_transfer]
  rw [if_neg (by simp [hab])]
  dsimp only
  have hsw : switchStep devc t now s = handleCompleted devc t now s := by
    obtain ⟨st, len⟩ := t
    simp only at hst
    rcases hst with h | h <;> (subst h; rfl)
  rw [hsw]
  obtain ⟨hu, hr, _⟩ := handleCompleted_len_zero devc t now s hlen
  refine ⟨hr, ?_, ?_⟩
  · rw [globalChecks_got, handleCompleted_got, hlen]
    omega
  · intro hpro
    rw [globalChecks_used_of_not_stall, hu]
    rw [handleCompleted_completed, handleCompleted_duration]
    tauto

theorem C8_witness :
    (receive_transfer 0 exDev ⟨.timedOut, 0⟩ 50 true).resubmitted = false ∧
      (receive_transfer 0 exDev ⟨.timedOut, 0⟩ 50 true).devc.samples_got_nbytes =
        exDev.samples_got_nbytes ∧
      ((exDev.num_transfers_completed = 0 ∨
          ¬ (((50 - exDev.transfers_reached_time_latest : ℤ) : ℚ) / 1000 >
            (0 + 1) * (exDev.per_transfer_duration : ℚ))) →
        (receive_transfer 0 exDev ⟨.timedOut, 0⟩ 50 true).devc.num_transfers_used =
          exDev.num_transfers_used - 1) :=
  C8_amended_zero_length_retires 0 exDev ⟨.timedOut, 0⟩ 50 true (by decide)
    (Or.inr rfl) (by decide)

/-- C9 as stated is refuted: when the abort latch is set at entry the
callback returns before protocol.c:113, so `num_transfers_completed`
does not increment. -/
theorem C9_counterexample :
    ¬ ((receive_transfer 0 exDevLatched ⟨.completed, 10⟩ 100
          true).devc.num_transfers_completed =
        exDevLatched.num_transfers_completed + 1) := by
  decide

/-- C9 amended: `num_transfers_completed` increments by exactly one on
every invocation in which the abort latch is clear at entry, for every
status and state; when the latch is set the handler returns with the
counter unchanged. -/
theorem C9_amended_completed_increments (tol : ℚ) (devc : DevContext) (t : Transfer)
    (now : ℤ) (s : Bool) (hab : devc.acq_aborted = false) :
    (receive_transfer tol devc t now s).devc.num_transfers_completed =
      devc.num_transfers_completed + 1 := by
  simp only [receive_transfer]
  rw [if_neg (by simp [hab])]
  dsimp only
  rw [globalChecks_completed, switchStep_completed]

theorem C9_witness :
    (receive_transfer 0 exDev ⟨.cancelled, 7⟩ 100 false).devc.num_transfers_completed =
      exDev.num_transfers_completed + 1 :=
  C9_amended_completed_increments 0 exDev ⟨.cancelled, 7⟩ 100 false (by decide)

/-- C10: if the abort latch is set when the callback is invoked, it
returns immediately: the whole device context (byte counter,
outstanding counter, completed counter, throughput counters, last
completion timestamp) is unchanged, no bytes are forwarded, and the
transfer is not resubmitted. -/
theorem C10_aborted_early_return (tol : ℚ) (devc : DevContext) (t : Transfer)
    (now : ℤ) (s : Bool) (hab : devc.acq_aborted = true) :
    (receive_transfer tol devc t now s).devc = devc ∧
      (receive_transfer tol devc t now s).resubmitted = false ∧
      (receive_transfer tol devc t now s).forwarded = none := by
  rw [receive_transfer_aborted tol devc t now s hab]
  exact ⟨rfl, rfl, rfl⟩

theorem C10_witness :
    (receive_transfer 0 { exDev with acq_aborted := true } ⟨.completed, 42⟩ 12345
        true).devc = { exDev with acq_aborted := true } ∧
      (receive_transfer 0 { exDev with acq_aborted := true } ⟨.completed, 42⟩ 12345
        true).resubmitted = false ∧
      (receive_transfer 0 { exDev with acq_aborted := true } ⟨.completed, 42⟩ 12345
        true).forwarded = none :=
  C10_aborted_early_return 0 { exDev with acq_aborted := true } ⟨.completed, 42⟩
    12345 true (by decide)

/-- C2 as stated is refuted: at `cur_samplerate` 1 MHz and 2 channels,
with every trial submission succeeding, the probe accepts
`per_transfer_nbytes = 16384`, which is neither a multiple of the
32 KiB granularity nor at or above the 32 KiB floor, and no error is
returned — because the success path halves once more after the 32 KiB
rounding (protocol.c:236). -/
theorem C2_counterexample :
    sipeed_slogic_probe 1000000 2 true (fun _ => .submitOk) = some (16384, 65) ∧
      ¬ (2 * 16 * 1024 ∣ 16384) ∧ 16384 < 2 * 16 * 1024 := by
  refine ⟨?_, by decide, by norm_num⟩
  unfold sipeed_slogic_probe initialPerTransferNbytes
  norm_num
  rw [probeLoop]
  norm_num [roundup32k]

/-- C2 amended: for every configuration and every outcome sequence, the
accepted `per_transfer_nbytes` is a positive multiple of 16 KiB (half
the 32 KiB rounding granularity, hence at least 16 KiB), or probing
fails with the explicit `SR_ERR_IO` outcome. -/
theorem C2_amended_accepted_multiple_of_16k (rate ch : ℕ) (tAlloc : Bool)
    (outcomes : ℕ → ProbeOutcome) (v d : ℕ)
    (hpos : 0 < initialPerTransferNbytes rate ch)
    (heq : sipeed_slogic_probe rate ch tAlloc outcomes = some (v, d)) :
    16 * 1024 ∣ v ∧ 16 * 1024 ≤ v := by
  unfold sipeed_slogic_probe at heq
  split at heq
  · exact probeLoop_accepted_shape rate ch outcomes _ hpos 0 125 v d heq
  · exact absurd heq (by simp)

theorem C2_amended_witness : 16 * 1024 ∣ 16384 ∧ 16 * 1024 ≤ 16384 :=
  C2_amended_accepted_multiple_of_16k 1000000 2 true (fun _ => .submitOk) 16384 65
    (by norm_num [initialPerTransferNbytes])
    (by unfold sipeed_slogic_probe initialPerTransferNbytes
        norm_num
        rw [probeLoop]
        norm_num [roundup32k])

/-- C3 as stated is refuted: with every trial allocation failing (so no
successful trial submission ever happens), the halving loop falls to
16384 < 32 KiB, exits, and the probe accepts that undersized value —
`sipeed_slogic_acquisition_start` then continues into the pool fill
instead of failing with `SR_ERR_IO`. -/
theorem C3_counterexample :
    sipeed_slogic_probe 1000000 2 true (fun _ => .allocFail) = some (16384, 131) ∧
      16384 < 32 * 1024 := by
  refine ⟨?_, by norm_num⟩
  unfold sipeed_slogic_probe initialPerTransferNbytes
  norm_num
  rw [probeLoop]
  norm_num [roundup32k]

/-- C3 amended: the probe section returns the `SR_ERR_IO` outcome only
when `libusb_alloc_transfer` fails or some trial submission fails with
an error other than out-of-memory; falling below the 32 KiB floor
without a successful submission instead accepts the current value and
start continues into the pool fill. -/
theorem C3_amended_io_error_causes (rate ch : ℕ) (tAlloc : Bool)
    (outcomes : ℕ → ProbeOutcome)
    (h : sipeed_slogic_probe rate ch tAlloc outcomes = none) :
    tAlloc = false ∨ ∃ j, outcomes j = .submitOtherErr := by
  unfold sipeed_slogic_probe at h
  split at h
  · exact Or.inr (probeLoop_none_reason rate ch outcomes _ 0 125 h)
  · next hcond =>
    simp at hcond
    exact Or.inl hcond

theorem C3_amended_witness :
    (true = false) ∨
      ∃ j : ℕ, (fun _ : ℕ => ProbeOutcome.submitOtherErr) j =
        ProbeOutcome.submitOtherErr :=
  C3_amended_io_error_causes 1000000 2 true (fun _ => ProbeOutcome.submitOtherErr)
    (by unfold sipeed_slogic_probe initialPerTransferNbytes
        norm_num
        rw [probeLoop])
